import Mathlib

/-!
# Shallow embedding of `web_request_readers` (canonical engine: `UnmarshalParams`)

This file embeds the parameter-binding engine of the repository in Lean 4 and
proves the frozen claims about it.  The authoritative source is the canonical
iteration of the engine (the `web_request_readers` package file defining
`UnmarshalParams`, `NameAndArgs`, `unmarshalToValue`, `setValue`, `setInt`,
`setFloat`), together with `missing_fields_error.go` (`MissingFields`),
the `DefaultValueCreator` interface and the `RequestValueReceiver` interface.

Modelling decisions (all noted next to the definitions they concern):
* Go `interface{}` request values are modelled by the inductive `Value`.
  Go's distinct dynamic integer types (`int`, `int8` … `int64`) are collapsed
  into one `Value.int` constructor and the two float types into `Value.float`,
  because every integer case of `setInt`/`setFloat` performs the same
  `SetInt`/`SetFloat` conversion; floats are modelled as rationals.
* `reflect` struct metadata is modelled by `Field`/`FieldList` (tags, name,
  embedded flag) and runtime struct values by `FieldVal`/`ValList`.
* Types implementing the `RequestValueReceiver` capability are modelled by the
  `FieldTy.tRecv` constructor carrying a `RecvSpec`: the behaviour of the
  user-written `Receive` method (error or accept) and of an optional
  `DefaultValue` method.  On success a receiver stores the raw value it was
  given.  No type in this universe implements the `PreReceiver`/`PostReceiver`
  hooks, so the corresponding interface checks in `setValue` (which the source
  performs and which are no-ops when the interfaces are not implemented)
  reduce away and are not reproduced as dead branches.
* `objx.Map` is a Go `map[string]interface{}`: modelled as an association list
  with pairwise-distinct keys; `params[name]` is first-match lookup and
  `len(params)` is the list length.
-/

namespace WebRequestReaders

/-- A raw request value (Go `interface{}`), as stored in an `objx.Map`.
Go's `nil` is `null`; the numeric dynamic types are collapsed as described in
the file header. -/
inductive Value where
  | null
  | str (s : String)
  | int (n : Int)
  | float (q : Rat)
  | bool (b : Bool)
deriving DecidableEq

/-- Behaviour of a user-written type that implements the
`RequestValueReceiver` capability (`Receive(interface{}) error`), and
optionally the `DefaultValueCreator` capability (`DefaultValue() interface{}`).
`recv v = some e` means `Receive(v)` returns the error `e`; `none` means it
succeeds and the receiver stores `v`.  `dflt = some d` means the type also
implements `DefaultValueCreator` and `DefaultValue()` returns `d`. -/
structure RecvSpec where
  recv : Value → Option String
  dflt : Option Value

/-- The declared type of a struct field, restricted to the kinds the engine
distinguishes: the integer kinds (collapsed, see header), the float kinds
(collapsed), `string`, `bool`, the `database/sql` nullable wrapper for
integers (`sql.NullInt64`: a struct named with the `Null` prefix whose fields
are `Valid bool` and `Int64 int64`), pointers, and user types implementing
`RequestValueReceiver`. -/
inductive FieldTy where
  | tInt
  | tFloat
  | tStr
  | tBool
  | tNullInt
  | tPtr (t : FieldTy)
  | tRecv (spec : RecvSpec)

mutual
/-- Runtime value of a struct field.  `vPtrNil` is a nil pointer; `vPtr v`
is a non-nil pointer to `v` (field pointers are uniquely owned here, so a
pointer is modelled by its pointee).  `vRecv st` is the state of a
receiver-capable value: `st` is the raw value last accepted by `Receive`,
`none` if it never accepted one (zero value). -/
inductive FieldVal where
  | vInt (n : Int)
  | vFloat (q : Rat)
  | vStr (s : String)
  | vBool (b : Bool)
  | vNullInt (valid : Bool) (n : Int)
  | vPtrNil
  | vPtr (v : FieldVal)
  | vRecv (st : Option Value)
  | vStruct (vs : ValList)

/-- The field values of a struct, in declaration order. -/
inductive ValList where
  | vnil
  | vcons (v : FieldVal) (vs : ValList)
end

deriving instance DecidableEq for FieldVal
deriving instance DecidableEq for ValList

mutual
/-- Metadata of one struct field as seen through `reflect`: either a plain
field with its name and the values of its `request`, `response` and `db`
tags (`""` when the tag is absent, as `Tag.Get` reports), or an anonymous
(embedded) struct field, which the engine recurses into. -/
inductive Field where
  | plain (name reqTag respTag dbTag : String) (ty : FieldTy)
  | embedded (name : String) (sub : FieldList)

/-- The fields of a struct type, in declaration order. -/
inductive FieldList where
  | fnil
  | fcons (f : Field) (rest : FieldList)
end

/-- `MissingFields` from `missing_fields_error.go`: the list of names that
were expected in a request but not found. -/
structure MissingFields where
  Names : List String
deriving DecidableEq

/-- `AddMissingField` appends a name to the error's list of missing fields. -/
def MissingFields.AddMissingField (err : MissingFields) (fieldName : String) :
    MissingFields :=
  ⟨err.Names ++ [fieldName]⟩

/-- `HasMissingFields` reports whether any fields were missing
(`len(err.Names) > 0`). -/
def MissingFields.HasMissingFields (err : MissingFields) : Bool :=
  decide (0 < err.Names.length)

/-- `params[name]`: first-match lookup in the association list modelling the
`objx.Map` (Go map keys are distinct, so first-match is exact). -/
def lookupParam (params : List (String × Value)) (key : String) : Option Value :=
  match params with
  | [] => none
  | (k, v) :: rest => if k = key then some v else lookupParam rest key

/-- Fold a digit list into the natural number it denotes in base 10. -/
def digitsToNat (ds : List Char) : Nat :=
  ds.foldl (fun acc c => 10 * acc + (c.toNat - '0'.toNat)) 0

/-- `strconv.ParseInt(s, 10, 64)`: optional sign, one or more decimal digits,
syntax error otherwise, range error outside the `int64` range (the source
always discards the clamped value Go returns alongside a range error). -/
def parseInt64 (s : String) : Except String Int :=
  let signed : Int × List Char :=
    match s.data with
    | '+' :: rest => (1, rest)
    | '-' :: rest => (-1, rest)
    | rest => (1, rest)
  if signed.2 = [] ∨ ¬ signed.2.all Char.isDigit then
    Except.error ("strconv.ParseInt: parsing \"" ++ s ++ "\": invalid syntax")
  else
    let v : Int := signed.1 * (digitsToNat signed.2 : Int)
    if v < -(2 ^ 63) ∨ 2 ^ 63 - 1 < v then
      Except.error ("strconv.ParseInt: parsing \"" ++ s ++ "\": value out of range")
    else
      Except.ok v

/-- `strconv.ParseFloat(s, 64)`, modelled on plain decimal forms
(optional sign, digits, optional fractional part) — the only forms this
development exercises; exotic float syntax is out of scope. -/
def parseFloat (s : String) : Except String Rat :=
  let signed : Int × List Char :=
    match s.data with
    | '+' :: rest => (1, rest)
    | '-' :: rest => (-1, rest)
    | rest => (1, rest)
  let intPart := signed.2.takeWhile (fun c => c ≠ '.')
  let rest := signed.2.dropWhile (fun c => c ≠ '.')
  let ok : Bool :=
    intPart.all Char.isDigit &&
      (match rest with
       | [] => ¬ intPart.isEmpty
       | '.' :: fracPart =>
           fracPart.all Char.isDigit && ¬ (intPart.isEmpty && fracPart.isEmpty)
       | _ => false)
  if ok then
    let fracPart := match rest with | '.' :: fp => fp | _ => []
    let den : Nat := 10 ^ fracPart.length
    Except.ok (mkRat
      (signed.1 * ((digitsToNat intPart : Int) * (den : Int) +
        (digitsToNat fracPart : Int))) den)
  else
    Except.error ("strconv.ParseFloat: parsing \"" ++ s ++ "\": invalid syntax")

/-- Go's `int64(f)` conversion for a float source: truncation toward zero
(`Rat` is stored normalized with a positive denominator, so T-division of
numerator by denominator is exactly that truncation). -/
def ratTrunc (q : Rat) : Int :=
  Int.tdiv q.num (q.den : Int)

/-- `getNextOption`: split the remaining tag text at the first comma,
returning the next option and the remainder with all leading commas
stripped (when no comma exists, the whole text is the option). -/
def getNextOption : List Char → List Char × List Char
  | [] => ([], [])
  | c :: rest =>
      if c = ',' then ([], rest.dropWhile (fun x => x = ','))
      else
        let p := getNextOption rest
        (c :: p.1, p.2)

theorem length_dropWhile_le (p : Char → Bool) (l : List Char) :
    (l.dropWhile p).length ≤ l.length := by
  induction l with
  | nil => simp
  | cons c rest ih =>
      by_cases h : p c
      · simp only [List.dropWhile_cons, h, if_pos]
        exact le_trans ih (Nat.le_succ _)
      · simp [List.dropWhile_cons, h]

theorem getNextOption_snd_length_le (s : List Char) :
    (getNextOption s).2.length ≤ s.length := by
  induction s with
  | nil => simp [getNextOption]
  | cons c rest ih =>
      by_cases h : c = ','
      · simp only [getNextOption, h, if_pos rfl]
        exact le_trans (length_dropWhile_le _ _) (Nat.le_succ _)
      · simp only [getNextOption, if_neg h]
        exact le_trans ih (Nat.le_succ _)

/-- The option-collection loop of `NameAndArgs` (repeatedly take the next
option until the remaining tag text is empty), driven by a fuel counter so
that the definition is structurally recursive; `getNextOption` strictly
shrinks non-empty text, so any fuel of at least `s.length + 1` computes the
loop's full output (see `collectArgsFuel_eq`). -/
def collectArgsFuel : Nat → List Char → List String
  | 0, _ => []
  | _ + 1, [] => []
  | fuel + 1, c :: rest =>
      let p := getNextOption (c :: rest)
      p.1.asString :: collectArgsFuel fuel p.2

/-- The option-collection loop of `NameAndArgs`. -/
def collectArgs (s : List Char) : List String :=
  collectArgsFuel (s.length + 1) s

theorem getNextOption_snd_length_lt (c : Char) (rest : List Char) :
    (getNextOption (c :: rest)).2.length < (c :: rest).length := by
  simp only [List.length_cons]
  exact Nat.lt_succ_of_le (by
    by_cases h : c = ','
    · simpa [getNextOption, h] using length_dropWhile_le (fun x => decide (x = ',')) rest
    · simpa [getNextOption, h] using getNextOption_snd_length_le rest)

/-- Any fuel beyond the text's length computes the same option list: the
fuel counter is an artifact of the embedding, not of the loop. -/
theorem collectArgsFuel_eq (fuel₁ fuel₂ : Nat) (s : List Char)
    (h₁ : s.length < fuel₁) (h₂ : s.length < fuel₂) :
    collectArgsFuel fuel₁ s = collectArgsFuel fuel₂ s := by
  induction fuel₁ generalizing fuel₂ s with
  | zero => omega
  | succ f ih =>
      cases s with
      | nil =>
          cases fuel₂ with
          | zero => omega
          | succ f2 => simp [collectArgsFuel]
      | cons c rest =>
          cases fuel₂ with
          | zero => omega
          | succ f2 =>
              simp only [collectArgsFuel]
              have hlt := getNextOption_snd_length_lt c rest
              simp only [List.length_cons] at hlt h₁ h₂
              rw [ih f2 ((getNextOption (c :: rest)).2) (by omega) (by omega)]

/-- `strings.ToLower`, applied character-wise.  Go's function is
Unicode-aware; the engine only applies it to Go field identifiers, for which
the ASCII case mapping of `Char.toLower` coincides with Go's. -/
def toLowerName (s : String) : String :=
  (s.data.map Char.toLower).asString

/-- `NameAndArgs`: resolve the external key and the option list of a field
with the given `request`, `response` and `db` tag values and field name.
The key is the text of the `request` tag before the first comma when
non-empty; else the `response` tag when non-empty; else the `db` tag when
non-empty and not `"-"`; else the field name lower-cased. -/
def NameAndArgs (reqTag respTag dbTag fieldName : String) :
    String × List String :=
  let p := getNextOption reqTag.data
  let name := p.1.asString
  let args := collectArgs p.2
  if name ≠ "" then (name, args)
  else if respTag ≠ "" then (respTag, args)
  else if dbTag ≠ "" ∧ dbTag ≠ "-" then (dbTag, args)
  else (toLowerName fieldName, args)

/-- `unicode.IsUpper(rune(fieldType.Name[0]))`: a field is exported when its
name starts with an upper-case letter (struct field names are non-empty). -/
def isExported (name : String) : Bool :=
  match name.data with
  | [] => false
  | c :: _ => c.isUpper

/-- The option-scanning loop of `unmarshalToValue`: starting from the
process-wide `DefaultRequired` flag, the first `"optional"` argument makes
the field optional and the first `"required"` argument makes it required
(either one breaks the loop). -/
def resolveRequired (defaultRequired : Bool) : List String → Bool
  | [] => defaultRequired
  | arg :: rest =>
      if arg = "optional" then false
      else if arg = "required" then true
      else resolveRequired defaultRequired rest

/-- The zero value of a field type (Go's zero-initialised struct field). -/
def zeroVal : FieldTy → FieldVal
  | .tInt => .vInt 0
  | .tFloat => .vFloat 0
  | .tStr => .vStr ""
  | .tBool => .vBool false
  | .tNullInt => .vNullInt false 0
  | .tPtr _ => .vPtrNil
  | .tRecv _ => .vRecv none

/-- `setValue`'s nil-pointer allocation: `if target.Kind() == Ptr &&
target.IsNil() { target.Set(reflect.New(target.Type().Elem())) }`. -/
def allocIfNil : FieldTy → FieldVal → FieldVal
  | .tPtr t, .vPtrNil => .vPtr (zeroVal t)
  | _, v => v

/-- The `RequestValueReceiver` capability lookup of `setValue`: the interface
is looked up on the field value and, when the field is addressable (struct
fields always are here), on its address.  A `tRecv` type therefore satisfies
it whether its `Receive` method has a value or pointer receiver, and so does
a pointer to such a type.  Deeper pointer chains do not satisfy it (a `**T`
carries no methods of `*T` and its address is a `***T`). -/
def recvSpecOf : FieldTy → Option RecvSpec
  | .tRecv spec => some spec
  | .tPtr (.tRecv spec) => some spec
  | _ => none

/-- The state a receiver-capable field holds after `Receive` accepts `value`
(wrapped back into the pointer when the field's type is a pointer). -/
def recvState : FieldTy → Value → FieldVal
  | .tPtr _, value => .vPtr (.vRecv (some value))
  | _, value => .vRecv (some value)

/-- The `DefaultValueCreator` capability lookup of `unmarshalToValue`
(`field.Interface().(DefaultValueCreator)`, found on the value or carried
through a pointer field). -/
def dfltOf : FieldTy → Option Value
  | .tRecv spec => spec.dflt
  | .tPtr (.tRecv spec) => spec.dflt
  | _ => none

/-- `setInt`: convert a raw value into an integer field.  A string source is
parsed with `strconv.ParseInt(src, 10, 64)` (its error is returned and the
field is left unchanged); integer and float sources are converted with
`SetInt` (floats truncate toward zero); any other dynamic type matches no
case of the type switch, so the function returns nil and the field is left
unchanged. -/
def setInt (cur : Int) (value : Value) : Int × Option String :=
  match value with
  | .str s =>
      match parseInt64 s with
      | .error e => (cur, some e)
      | .ok n => (n, none)
  | .int n => (n, none)
  | .float q => (ratTrunc q, none)
  | _ => (cur, none)

/-- `setFloat`: the float analogue of `setInt`, using
`strconv.ParseFloat(src, 64)` for string sources. -/
def setFloat (cur : Rat) (value : Value) : Rat × Option String :=
  match value with
  | .str s =>
      match parseFloat s with
      | .error e => (cur, some e)
      | .ok q => (q, none)
  | .int n => (mkRat n 1, none)
  | .float q => (q, none)
  | _ => (cur, none)

/-- Go's `string(rune(n))` conversion, for the `ConvertibleTo` branch of
`setValue` applied to an integer source and a string target: the character
with that code point, or the replacement character for invalid code points. -/
def goIntToString (n : Int) : String :=
  if 0 ≤ n ∧ n < 0x110000 ∧ ¬ (0xD800 ≤ n ∧ n ≤ 0xDFFF) then
    String.singleton (Char.ofNat n.toNat)
  else
    "�"

/-- The `default:` branch of `setValue`'s kind switch: if the source value's
dynamic type is convertible to the target's type, convert and assign,
otherwise fail.  Restricted to this universe: a string converts to a string
field, an integer converts to a string field (Go's rune conversion), a bool
converts to a bool field; nothing else is convertible. -/
def convertAssign (ty : FieldTy) (cur : FieldVal) (value : Value) :
    FieldVal × Option String :=
  match ty, value with
  | .tStr, .str s => (.vStr s, none)
  | .tStr, .int n => (.vStr (goIntToString n), none)
  | .tBool, .bool b => (.vBool b, none)
  | _, _ => (cur, some "Cannot convert value to target type")

/-- The tail of `setValue` after the receiver check: dereference pointers
(`for target.Kind() == reflect.Ptr`), apply the `Null`-prefixed
nullable-wrapper shim (set `Valid` to `value != nil`, which is `true` on
this path since a nil value returned earlier, then continue against the
inner field), then dispatch on the target's kind.  Reached only with a
non-nil value. -/
def setValueKind : FieldTy → FieldVal → Value → FieldVal × Option String
  | .tPtr t, .vPtr v, value =>
      let p := setValueKind t v value
      (.vPtr p.1, p.2)
  | .tNullInt, .vNullInt _ n, value =>
      let p := setInt n value
      (.vNullInt true p.1, p.2)
  | .tInt, .vInt n, value =>
      let p := setInt n value
      (.vInt p.1, p.2)
  | .tFloat, .vFloat q, value =>
      let p := setFloat q value
      (.vFloat p.1, p.2)
  | ty, v, value => convertAssign ty v value

/-- `setValue`: update a field to match a raw request value, returning the
new field state and the error (`nil` = `none`).  A nil value is only legal
for pointer fields, which it clears; otherwise a hard error is returned
before anything else runs.  A nil pointer field is then allocated, the
`RequestValueReceiver` capability takes over conversion entirely when
present (its error is the result, and on success the receiver holds the raw
value), and otherwise conversion proceeds by kind (`setValueKind`). -/
def setValue (ty : FieldTy) (target : FieldVal) (value : Value) :
    FieldVal × Option String :=
  if value = Value.null then
    match ty with
    | .tPtr _ => (.vPtrNil, none)
    | _ => (target, some "Cannot set non-pointer value to null")
  else
    let target := allocIfNil ty target
    match recvSpecOf ty with
    | some spec =>
        match spec.recv value with
        | some e => (target, some e)
        | none => (recvState ty value, none)
    | none => setValueKind ty target value

/-- The per-field state and counters produced by processing one field:
the field's new value, the missing-fields accumulator after the field, the
number of parameters matched, the number of `DefaultValue()` invocations
made, and the parse error (`nil` = `none`). -/
structure FieldOut where
  val : FieldVal
  missing : MissingFields
  matched : Nat
  defaultCalls : Nat
  err : Option String
deriving DecidableEq

/-- The traversal state produced by `unmarshalToValue`: the struct's new
field values plus the same counters as `FieldOut`. -/
structure TraverseOut where
  vals : ValList
  missing : MissingFields
  matched : Nat
  defaultCalls : Nat
  err : Option String

mutual
/-- One iteration of `unmarshalToValue`'s field loop.  An anonymous field is
recursed into (its matched count accumulates and its parse error aborts the
caller's loop).  An unexported field is skipped.  Otherwise the key and
options come from `NameAndArgs`; a key of `"-"` skips the field; a present
parameter increments the matched count and is converted with `setValue`; an
absent parameter either records the key as missing (when required) or, when
the field's type implements `DefaultValueCreator`, assigns the result of
`DefaultValue()` through `setValue`, discarding any error. -/
def unmarshalField (defaultRequired : Bool) (params : List (String × Value))
    (f : Field) (v : FieldVal) (missingErr : MissingFields) : FieldOut :=
  match f, v with
  | .embedded _ sub, .vStruct vs =>
      let o := unmarshalToValue defaultRequired params sub vs missingErr
      ⟨.vStruct o.vals, o.missing, o.matched, o.defaultCalls, o.err⟩
  | .embedded _ _, v => ⟨v, missingErr, 0, 0, none⟩
  | .plain name reqTag respTag dbTag ty, v =>
      if isExported name then
        let na := NameAndArgs reqTag respTag dbTag name
        if na.1 = "-" then ⟨v, missingErr, 0, 0, none⟩
        else
          let required := resolveRequired defaultRequired na.2
          match lookupParam params na.1 with
          | some value =>
              let p := setValue ty v value
              ⟨p.1, missingErr, 1, 0, p.2⟩
          | none =>
              if required then
                ⟨v, missingErr.AddMissingField na.1, 0, 0, none⟩
              else
                match dfltOf ty with
                | some d => ⟨(setValue ty v d).1, missingErr, 0, 1, none⟩
                | none => ⟨v, missingErr, 0, 0, none⟩
      else ⟨v, missingErr, 0, 0, none⟩
termination_by structural f

/-- `unmarshalToValue`: walk the fields in declaration order, accumulating
the matched-field count and the missing-fields error, and stopping the loop
as soon as a parse error is set (`for i := 0; i < NumField && parseErr ==
nil; i++`) — fields after the error keep their values untouched. -/
def unmarshalToValue (defaultRequired : Bool) (params : List (String × Value))
    (fields : FieldList) (vals : ValList) (missingErr : MissingFields) :
    TraverseOut :=
  match fields, vals with
  | .fnil, vs => ⟨vs, missingErr, 0, 0, none⟩
  | .fcons f fs, .vcons v vs =>
      let o := unmarshalField defaultRequired params f v missingErr
      match o.err with
      | some e => ⟨.vcons o.val vs, o.missing, o.matched, o.defaultCalls, some e⟩
      | none =>
          let o2 := unmarshalToValue defaultRequired params fs vs o.missing
          ⟨.vcons o.val o2.vals, o2.missing, o.matched + o2.matched,
            o.defaultCalls + o2.defaultCalls, o2.err⟩
  | .fcons _ _, .vnil => ⟨.vnil, missingErr, 0, 0, none⟩
termination_by structural fields
end

/-- The outcome of `UnmarshalParams`, classifying its returned `error`:
`ok` is a nil error, `missingFields` is the soft `MissingFields` error value
(carrying its `Names`), and `err` is any hard error with its message. -/
inductive BindResult where
  | ok
  | missingFields (names : List String)
  | err (msg : String)
deriving DecidableEq

/-- `UnmarshalParams`: run the traversal on the target struct (the
`defaultRequired` argument threads the process-wide `DefaultRequired` flag)
and settle the outcome: a parse error is returned immediately; else a
matched-field count smaller than the parameter count is the hard
more-parameters error; else a non-empty missing-fields list is the
`MissingFields` outcome; else success.  Returns the mutated field values
alongside the outcome. -/
def UnmarshalParams (defaultRequired : Bool) (params : List (String × Value))
    (fields : FieldList) (vals : ValList) : ValList × BindResult :=
  let o := unmarshalToValue defaultRequired params fields vals ⟨[]⟩
  match o.err with
  | some e => (o.vals, .err e)
  | none =>
      if o.matched < params.length then
        (o.vals, .err "More parameters passed than this model has fields.")
      else if o.missing.HasMissingFields then
        (o.vals, .missingFields o.missing.Names)
      else
        (o.vals, .ok)

/-! ## Specification-side definitions

Definitions in this section follow the words of the specification (not the
source); the theorems below compare the source-derived engine against them. -/

/-- Key resolution as the specification words it: among (1) the `request`
tag's key part, (2) the `response` tag value, (3) the `db` tag value when
present and not `"-"`, the first non-empty value wins; otherwise the field
name lower-cased. -/
def resolveKeySpec (reqTag respTag dbTag fieldName : String) : String :=
  let cands := [((getNextOption reqTag.data).1).asString, respTag,
    if dbTag = "-" then "" else dbTag]
  match cands.find? (fun c => c ≠ "") with
  | some c => c
  | none => toLowerName fieldName

mutual
/-- The resolved keys of the required fields of one field that have no
matching parameter (specification-side accounting for the missing-fields
invariant). -/
def missingKeysF (defaultRequired : Bool) (params : List (String × Value)) :
    Field → List String
  | .plain name reqTag respTag dbTag _ =>
      if isExported name then
        let na := NameAndArgs reqTag respTag dbTag name
        if na.1 = "-" then []
        else if resolveRequired defaultRequired na.2 = true ∧
            lookupParam params na.1 = none then [na.1]
        else []
      else []
  | .embedded _ sub => missingKeys defaultRequired params sub
termination_by structural f => f

/-- The resolved keys, in declaration order, of all required fields with no
matching parameter. -/
def missingKeys (defaultRequired : Bool) (params : List (String × Value)) :
    FieldList → List String
  | .fnil => []
  | .fcons f fs =>
      missingKeysF defaultRequired params f ++ missingKeys defaultRequired params fs
termination_by structural fs => fs
end

mutual
/-- Whether one field is an exported, non-skipped field that is required
after option resolution and has no matching parameter. -/
def hasRequiredAbsentF (defaultRequired : Bool) (params : List (String × Value)) :
    Field → Bool
  | .plain name reqTag respTag dbTag _ =>
      let na := NameAndArgs reqTag respTag dbTag name
      isExported name && !(na.1 = "-") &&
        resolveRequired defaultRequired na.2 &&
        (lookupParam params na.1).isNone
  | .embedded _ sub => hasRequiredAbsent defaultRequired params sub
termination_by structural f => f

/-- Whether at least one (recursively flattened) field is required but has
no matching parameter. -/
def hasRequiredAbsent (defaultRequired : Bool) (params : List (String × Value)) :
    FieldList → Bool
  | .fnil => false
  | .fcons f fs =>
      hasRequiredAbsentF defaultRequired params f ||
        hasRequiredAbsent defaultRequired params fs
termination_by structural fs => fs
end

mutual
/-- A field value has the shape its field metadata expects (embedded fields
hold structs of matching shape). -/
def alignedF : Field → FieldVal → Bool
  | .plain _ _ _ _ _, _ => true
  | .embedded _ sub, .vStruct vs => aligned sub vs
  | .embedded _ _, _ => false
termination_by structural f => f

/-- A value list has the shape of a field list. -/
def aligned : FieldList → ValList → Bool
  | .fnil, .vnil => true
  | .fcons f fs, .vcons v vs => alignedF f v && aligned fs vs
  | _, _ => false
termination_by structural fs => fs
end

/-! ## Claim theorems -/

/-- C2: for every exported, non-embedded field, the external key used to
look up its parameter (the key component of `NameAndArgs`, which
`unmarshalToValue` passes to the parameter lookup) is resolved by
precedence with the first non-empty value winning: the `request` tag's key
part, then the `response` tag, then the `db` tag when present and not
`"-"`, then the field's name lower-cased. -/
theorem NameAndArgs_key_refines_spec (reqTag respTag dbTag fieldName : String) :
    (NameAndArgs reqTag respTag dbTag fieldName).1
      = resolveKeySpec reqTag respTag dbTag fieldName := by
  unfold NameAndArgs resolveKeySpec
  by_cases h1 : ((getNextOption reqTag.data).1).asString = ""
  · by_cases h2 : respTag = ""
    · by_cases h3 : (if dbTag = "-" then "" else dbTag) = ""
      · have hdb : ¬ (dbTag ≠ "" ∧ dbTag ≠ "-") := by
          by_cases hd : dbTag = "-" <;> simp [hd] at h3 ⊢ <;> simp [h3]
        simp [h1, h2, h3, hdb, List.find?]
      · have hdb : dbTag ≠ "" ∧ dbTag ≠ "-" := by
          by_cases hd : dbTag = "-" <;> simp [hd] at h3 ⊢ <;> simp [h3, hd]
        have hval : (if dbTag = "-" then "" else dbTag) = dbTag := by
          simp [hdb.2]
        simp [h1, h2, h3, hdb, List.find?, hval]
    · simp [h1, h2, List.find?]
  · simp [h1, List.find?]

/-- C3 counterexample: a field whose only tag is `db:"-"` is not excluded
from binding — with no parameters its lower-cased name lands in the
missing-fields outcome, and with a matching parameter it is assigned and
counted as matched. -/
theorem db_dash_not_excluded_counterexample :
    (UnmarshalParams true []
        (.fcons (.plain "Age" "" "" "-" .tInt) .fnil) (.vcons (.vInt 0) .vnil)).2
      = .missingFields ["age"]
    ∧ UnmarshalParams true [("age", .int 5)]
        (.fcons (.plain "Age" "" "" "-" .tInt) .fnil) (.vcons (.vInt 0) .vnil)
      = (.vcons (.vInt 5) .vnil, .ok) := by
  constructor <;> decide

/-- C3 amended: a `"-"` in the `request` tag's key part, or (when the
`request` key part is empty) a `"-"` `response` tag, excludes the field
entirely from binding — it is never assigned, matched, defaulted, or
recorded missing; but a `"-"` `db` tag does not exclude the field: key
resolution falls through to the lower-cased field name. -/
theorem dash_skip_amended (defaultRequired : Bool)
    (params : List (String × Value)) (name reqTag respTag dbTag : String)
    (ty : FieldTy) (v : FieldVal) (m : MissingFields) :
    (((getNextOption reqTag.data).1).asString = "-" →
        unmarshalField defaultRequired params
          (.plain name reqTag respTag dbTag ty) v m = ⟨v, m, 0, 0, none⟩)
    ∧ (((getNextOption reqTag.data).1).asString = "" → respTag = "-" →
        unmarshalField defaultRequired params
          (.plain name reqTag respTag dbTag ty) v m = ⟨v, m, 0, 0, none⟩)
    ∧ (((getNextOption reqTag.data).1).asString = "" → respTag = "" →
        dbTag = "-" →
        (NameAndArgs reqTag respTag dbTag name).1 = toLowerName name) := by
  refine ⟨fun h1 => ?_, fun h1 h2 => ?_, fun h1 h2 h3 => ?_⟩
  · have hkey : (NameAndArgs reqTag respTag dbTag name).1 = "-" := by
      unfold NameAndArgs
      simp [h1]
    by_cases hx : isExported name
    · simp [unmarshalField, hx, hkey]
    · simp [unmarshalField, hx]
  · have hkey : (NameAndArgs reqTag respTag dbTag name).1 = "-" := by
      unfold NameAndArgs
      simp [h1, h2]
    by_cases hx : isExported name
    · simp [unmarshalField, hx, hkey]
    · simp [unmarshalField, hx]
  · unfold NameAndArgs
    simp [h1, h2, h3]

/-- C3 amended, witness. -/
theorem dash_skip_amended_witness :
    unmarshalField true [("x", Value.int 1)]
        (.plain "X" "-" "x" "" .tInt) (.vInt 0) ⟨[]⟩ = ⟨.vInt 0, ⟨[]⟩, 0, 0, none⟩ :=
  (dash_skip_amended true [("x", Value.int 1)] "X" "-" "x" "" .tInt
    (.vInt 0) ⟨[]⟩).1 (by decide)

/-- C4: the claim's `null` half contradicts the code — binding `null` to a
non-pointer `sql.NullInt64` field hits `setValue`'s early nil check and
returns the hard error "Cannot set non-pointer value to null" instead of
clearing the wrapper (the `value != nil` write to `Valid`, evidently meant
to support this, is unreachable for nil); binding `42` does set validity
`true` and inner value `42` as claimed. -/
theorem nullInt_null_hard_error :
    setValue .tNullInt (.vNullInt false 0) .null
      = (.vNullInt false 0, some "Cannot set non-pointer value to null")
    ∧ setValue .tNullInt (.vNullInt false 0) (.int 42)
      = (.vNullInt true 42, none) := by
  constructor <;> decide

/-- An example receiver whose `Receive` accepts every value and that
provides no default value. -/
def acceptAllRecv : RecvSpec := ⟨fun _ => none, none⟩

/-- C5 counterexample: for a receiver-capable field whose parameter value is
`null`, `Receive` is not invoked — `setValue`'s nil check runs first and
returns its own hard error even though this receiver's `Receive` never
errors, and the receiver's state is untouched. -/
theorem receiver_null_skips_receive_counterexample :
    setValue (.tRecv acceptAllRecv) (.vRecv none) .null
      = (.vRecv none, some "Cannot set non-pointer value to null") := by
  decide

/-- C5 amended: for every field whose type implements
`RequestValueReceiver` and whose key maps to a non-null raw value, the
`Receive` method is invoked with the raw value, the built-in conversion
never runs (the outcome is fully determined by `Receive`: on success the
receiver holds the raw value, on failure the field is unchanged), and any
error `Receive` returns is propagated verbatim; a null raw value is handled
by the nil rule before the receiver check, without invoking `Receive`. -/
theorem receiver_delegation_amended (spec : RecvSpec) (cur : FieldVal)
    (value : Value) (h : value ≠ Value.null) :
    (setValue (.tRecv spec) cur value).2 = spec.recv value
    ∧ (spec.recv value = none →
        (setValue (.tRecv spec) cur value).1 = .vRecv (some value))
    ∧ (∀ e, spec.recv value = some e →
        (setValue (.tRecv spec) cur value).1 = cur) := by
  unfold setValue
  simp only [if_neg h, allocIfNil, recvSpecOf]
  cases hr : spec.recv value with
  | none => simp [recvState]
  | some e => simp

/-- C5 amended, witness. -/
theorem receiver_delegation_amended_witness :
    (setValue (.tRecv acceptAllRecv) (.vRecv none) (Value.str "abc")).2
      = acceptAllRecv.recv (Value.str "abc") :=
  (receiver_delegation_amended acceptAllRecv (.vRecv none) (Value.str "abc")
    (by decide)).1

/-- C6: per-field requiredness options override the process-wide default —
with `DefaultRequired = true`, a field tagged `request:"name,optional"`
whose key is absent binds successfully with no missing-fields entry; with
`DefaultRequired = false`, the same field tagged `request:"name,required"`
whose key is absent produces the missing-fields outcome for `"name"`. -/
theorem required_option_overrides_default :
    UnmarshalParams true []
        (.fcons (.plain "F" "name,optional" "" "" .tInt) .fnil)
        (.vcons (.vInt 0) .vnil)
      = (.vcons (.vInt 0) .vnil, .ok)
    ∧ UnmarshalParams false []
        (.fcons (.plain "F" "name,required" "" "" .tInt) .fnil)
        (.vcons (.vInt 0) .vnil)
      = (.vcons (.vInt 0) .vnil, .missingFields ["name"]) := by
  constructor <;> decide

/-- C8: an integer field bound from the string parameter `"17"` is parsed
by decimal integer parsing and receives the value 17, and the string
`"abc"` produces a hard conversion error (the `strconv.ParseInt` syntax
error, surfaced as the call's error). -/
theorem int_field_string_coercion :
    UnmarshalParams true [("n", .str "17")]
        (.fcons (.plain "N" "" "" "" .tInt) .fnil) (.vcons (.vInt 0) .vnil)
      = (.vcons (.vInt 17) .vnil, .ok)
    ∧ (UnmarshalParams true [("n", .str "abc")]
        (.fcons (.plain "N" "" "" "" .tInt) .fnil) (.vcons (.vInt 0) .vnil)).2
      = .err "strconv.ParseInt: parsing \"abc\": invalid syntax" := by
  constructor <;> decide

/-- C10: a raw value whose dynamic type matches no case of `setInt` or
`setFloat` (for example a boolean) is silently ignored — the helpers return
no error and leave the field unchanged — so a matched boolean parameter on
an integer field lets the whole call succeed with the field still at its
zero value. -/
theorem unsupported_source_type_is_silent :
    (∀ (b : Bool) (cur : Int), setInt cur (.bool b) = (cur, none))
    ∧ (∀ (b : Bool) (cur : Rat), setFloat cur (.bool b) = (cur, none))
    ∧ UnmarshalParams true [("n", .bool true)]
        (.fcons (.plain "N" "" "" "" .tInt) .fnil) (.vcons (.vInt 0) .vnil)
      = (.vcons (.vInt 0) .vnil, .ok) := by
  refine ⟨fun b cur => ?_, fun b cur => ?_, by decide⟩
  · cases b <;> rfl
  · cases b <;> rfl

/-- C9: within the processing of one (exported, non-embedded) field,
`DefaultValue()` is invoked at most once, never when the field's resolved
key is present in the parameter map, never when the field is required after
option resolution, and when it is invoked the key is absent, the field is
optional, and its type implements `DefaultValueCreator`.  Each field is
processed exactly once per `UnmarshalParams` call (one loop iteration), so
this bounds the invocations per field per binding call. -/
theorem default_value_call_discipline (defaultRequired : Bool)
    (params : List (String × Value)) (name reqTag respTag dbTag : String)
    (ty : FieldTy) (v : FieldVal) (m : MissingFields) :
    (unmarshalField defaultRequired params
        (.plain name reqTag respTag dbTag ty) v m).defaultCalls ≤ 1
    ∧ (lookupParam params (NameAndArgs reqTag respTag dbTag name).1 ≠ none →
        (unmarshalField defaultRequired params
          (.plain name reqTag respTag dbTag ty) v m).defaultCalls = 0)
    ∧ (resolveRequired defaultRequired (NameAndArgs reqTag respTag dbTag name).2 = true →
        (unmarshalField defaultRequired params
          (.plain name reqTag respTag dbTag ty) v m).defaultCalls = 0)
    ∧ ((unmarshalField defaultRequired params
          (.plain name reqTag respTag dbTag ty) v m).defaultCalls = 1 →
        lookupParam params (NameAndArgs reqTag respTag dbTag name).1 = none
        ∧ resolveRequired defaultRequired (NameAndArgs reqTag respTag dbTag name).2 = false
        ∧ dfltOf ty ≠ none) := by
  simp only [unmarshalField]
  by_cases hx : isExported name
  · simp only [hx, if_true]
    by_cases hk : (NameAndArgs reqTag respTag dbTag name).1 = "-"
    · simp [hk]
    · simp only [hk, if_neg, ite_false]
      cases hl : lookupParam params (NameAndArgs reqTag respTag dbTag name).1 with
      | some value => simp
      | none =>
          simp only [ne_eq, not_true_eq_false, false_implies, true_and,
            not_false_eq_true]
          by_cases hreq : resolveRequired defaultRequired
              (NameAndArgs reqTag respTag dbTag name).2
          · simp [hreq]
          · simp only [hreq, if_false, Bool.not_eq_true] at hreq ⊢
            cases hd : dfltOf ty with
            | some d => simp [hreq, hd]
            | none => simp [hreq, hd]
  · simp [hx]

/-- C9, witness. -/
theorem default_value_call_discipline_witness :
    (unmarshalField true [("n", Value.int 3)]
        (.plain "N" "" "" "" (.tRecv acceptAllRecv)) (.vRecv none) ⟨[]⟩).defaultCalls = 0 :=
  (default_value_call_discipline true [("n", Value.int 3)] "N" "" "" ""
    (.tRecv acceptAllRecv) (.vRecv none) ⟨[]⟩).2.1 (by decide)

/-- C1: outcome priority and abort order of `UnmarshalParams` — a
conversion error raised while processing a field aborts the traversal (the
remaining fields keep their values and contribute nothing) and is returned
immediately; otherwise a matched-field count below the parameter count is
the hard more-parameters error; otherwise a non-empty missing-fields list
is the `MissingFields` outcome; otherwise the call succeeds. -/
theorem UnmarshalParams_outcome_priority (defaultRequired : Bool)
    (params : List (String × Value)) (fs : FieldList) (vs : ValList)
    (f : Field) (v : FieldVal) (m : MissingFields) :
    (∀ e, (unmarshalField defaultRequired params f v m).err = some e →
        unmarshalToValue defaultRequired params (.fcons f fs) (.vcons v vs) m =
          ⟨.vcons (unmarshalField defaultRequired params f v m).val vs,
            (unmarshalField defaultRequired params f v m).missing,
            (unmarshalField defaultRequired params f v m).matched,
            (unmarshalField defaultRequired params f v m).defaultCalls, some e⟩)
    ∧ (∀ e, (unmarshalToValue defaultRequired params fs vs ⟨[]⟩).err = some e →
        (UnmarshalParams defaultRequired params fs vs).2 = .err e)
    ∧ ((unmarshalToValue defaultRequired params fs vs ⟨[]⟩).err = none →
        (unmarshalToValue defaultRequired params fs vs ⟨[]⟩).matched < params.length →
        (UnmarshalParams defaultRequired params fs vs).2
          = .err "More parameters passed than this model has fields.")
    ∧ ((unmarshalToValue defaultRequired params fs vs ⟨[]⟩).err = none →
        ¬ (unmarshalToValue defaultRequired params fs vs ⟨[]⟩).matched < params.length →
        (unmarshalToValue defaultRequired params fs vs ⟨[]⟩).missing.Names ≠ [] →
        (UnmarshalParams defaultRequired params fs vs).2
          = .missingFields (unmarshalToValue defaultRequired params fs vs ⟨[]⟩).missing.Names)
    ∧ ((unmarshalToValue defaultRequired params fs vs ⟨[]⟩).err = none →
        ¬ (unmarshalToValue defaultRequired params fs vs ⟨[]⟩).matched < params.length →
        (unmarshalToValue defaultRequired params fs vs ⟨[]⟩).missing.Names = [] →
        (UnmarshalParams defaultRequired params fs vs).2 = .ok) := by
  refine ⟨fun e he => ?_, fun e he => ?_, fun he hlt => ?_, fun he hlt hne => ?_,
    fun he hlt hnil => ?_⟩
  · simp only [unmarshalToValue]
    rw [he]
  · simp [UnmarshalParams, he]
  · simp [UnmarshalParams, he, hlt]
  · have hmf : (unmarshalToValue defaultRequired params fs vs ⟨[]⟩).missing.HasMissingFields
        = true := by
      simp [MissingFields.HasMissingFields, List.length_pos, hne]
    simp [UnmarshalParams, he, hlt, hmf]
  · have hmf : (unmarshalToValue defaultRequired params fs vs ⟨[]⟩).missing.HasMissingFields
        = false := by
      simp [MissingFields.HasMissingFields, hnil]
    simp [UnmarshalParams, he, hlt, hmf]

/-- C1, witness. -/
theorem UnmarshalParams_outcome_priority_witness :
    unmarshalToValue true [("z", Value.str "x")]
        (.fcons (.plain "Z" "" "" "" .tInt) (.fcons (.plain "B" "" "" "" .tInt) .fnil))
        (.vcons (.vInt 0) (.vcons (.vInt 0) .vnil)) ⟨[]⟩ =
      ⟨.vcons (unmarshalField true [("z", Value.str "x")]
          (.plain "Z" "" "" "" .tInt) (.vInt 0) ⟨[]⟩).val
          (.vcons (.vInt 0) .vnil),
        (unmarshalField true [("z", Value.str "x")]
          (.plain "Z" "" "" "" .tInt) (.vInt 0) ⟨[]⟩).missing,
        (unmarshalField true [("z", Value.str "x")]
          (.plain "Z" "" "" "" .tInt) (.vInt 0) ⟨[]⟩).matched,
        (unmarshalField true [("z", Value.str "x")]
          (.plain "Z" "" "" "" .tInt) (.vInt 0) ⟨[]⟩).defaultCalls,
        some "strconv.ParseInt: parsing \"x\": invalid syntax"⟩ :=
  (UnmarshalParams_outcome_priority true [("z", Value.str "x")]
      (.fcons (.plain "B" "" "" "" .tInt) .fnil) (.vcons (.vInt 0) .vnil)
      (.plain "Z" "" "" "" .tInt) (.vInt 0) ⟨[]⟩).1
    "strconv.ParseInt: parsing \"x\": invalid syntax" (by decide)

mutual
/-- Processing one field under no parse error appends exactly that field's
required-but-absent keys (in order) to the missing-fields accumulator. -/
theorem unmarshalField_missing_names (defaultRequired : Bool)
    (params : List (String × Value)) (f : Field) (v : FieldVal)
    (m : MissingFields) (ha : alignedF f v = true)
    (he : (unmarshalField defaultRequired params f v m).err = none) :
    (unmarshalField defaultRequired params f v m).missing.Names
      = m.Names ++ missingKeysF defaultRequired params f := by
  cases f with
  | embedded nm sub =>
      cases v with
      | vStruct vs =>
          simp only [unmarshalField] at he ⊢
          simp only [missingKeysF]
          exact unmarshalToValue_missing_names defaultRequired params sub vs m
            (by simpa [alignedF] using ha) he
      | vInt n => simp [alignedF] at ha
      | vFloat q => simp [alignedF] at ha
      | vStr s => simp [alignedF] at ha
      | vBool b => simp [alignedF] at ha
      | vNullInt valid n => simp [alignedF] at ha
      | vPtrNil => simp [alignedF] at ha
      | vPtr w => simp [alignedF] at ha
      | vRecv st => simp [alignedF] at ha
  | plain name reqTag respTag dbTag ty =>
      simp only [unmarshalField, missingKeysF] at he ⊢
      by_cases hx : isExported name
      · simp only [hx, if_true] at he ⊢
        by_cases hk : (NameAndArgs reqTag respTag dbTag name).1 = "-"
        · simp [hk]
        · simp only [hk, ite_false, if_neg] at he ⊢
          cases hl : lookupParam params (NameAndArgs reqTag respTag dbTag name).1 with
          | some value => simp [hl]
          | none =>
              simp only [hl] at he ⊢
              by_cases hreq : resolveRequired defaultRequired
                  (NameAndArgs reqTag respTag dbTag name).2
              · simp [hreq, MissingFields.AddMissingField]
              · simp only [hreq, Bool.not_eq_true] at hreq ⊢
                cases hd : dfltOf ty with
                | some d => simp [hreq, hd]
                | none => simp [hreq, hd]
      · simp [hx]
termination_by structural f

/-- The full traversal under no parse error appends exactly the resolved
keys of all required-but-absent fields, in declaration order, to the
missing-fields accumulator. -/
theorem unmarshalToValue_missing_names (defaultRequired : Bool)
    (params : List (String × Value)) (fs : FieldList) (vs : ValList)
    (m : MissingFields) (ha : aligned fs vs = true)
    (he : (unmarshalToValue defaultRequired params fs vs m).err = none) :
    (unmarshalToValue defaultRequired params fs vs m).missing.Names
      = m.Names ++ missingKeys defaultRequired params fs := by
  cases fs with
  | fnil => simp [unmarshalToValue, missingKeys]
  | fcons f fsTail =>
      cases vs with
      | vnil => simp [aligned] at ha
      | vcons v vsTail =>
          have haF : alignedF f v = true := by
            simp only [aligned, Bool.and_eq_true] at ha
            exact ha.1
          have haT : aligned fsTail vsTail = true := by
            simp only [aligned, Bool.and_eq_true] at ha
            exact ha.2
          simp only [unmarshalToValue] at he ⊢
          cases hoe : (unmarshalField defaultRequired params f v m).err with
          | some e => simp [hoe] at he
          | none =>
              simp only [hoe] at he ⊢
              have h1 := unmarshalField_missing_names defaultRequired params f v m haF hoe
              have h2 := unmarshalToValue_missing_names defaultRequired params fsTail
                vsTail (unmarshalField defaultRequired params f v m).missing haT he
              simp only [missingKeys, h2, h1, List.append_assoc]
termination_by structural fs
end

mutual
/-- A field contributes a non-empty missing-keys segment exactly when it
(or, recursively, one of its embedded fields) is required but absent. -/
theorem missingKeysF_ne_nil_iff (defaultRequired : Bool)
    (params : List (String × Value)) (f : Field) :
    missingKeysF defaultRequired params f ≠ []
      ↔ hasRequiredAbsentF defaultRequired params f = true := by
  cases f with
  | embedded nm sub =>
      simp only [missingKeysF, hasRequiredAbsentF]
      exact missingKeys_ne_nil_iff defaultRequired params sub
  | plain name reqTag respTag dbTag ty =>
      simp only [missingKeysF, hasRequiredAbsentF]
      by_cases hx : isExported name
      · simp only [hx, if_true, Bool.true_and]
        by_cases hk : (NameAndArgs reqTag respTag dbTag name).1 = "-"
        · simp [hk]
        · simp only [hk, ite_false, if_neg, not_false_eq_true, Bool.not_false,
            Bool.true_and, decide_not]
          by_cases hreq : resolveRequired defaultRequired
              (NameAndArgs reqTag respTag dbTag name).2
          · cases hl : lookupParam params (NameAndArgs reqTag respTag dbTag name).1 with
            | some value => simp [hreq, hl]
            | none => simp [hreq, hl]
          · simp only [Bool.not_eq_true] at hreq
            simp [hreq]
      · simp [hx]
termination_by structural f

/-- The missing-keys accounting is non-empty exactly when at least one
required field, anywhere in the flattened field list, has no matching
parameter. -/
theorem missingKeys_ne_nil_iff (defaultRequired : Bool)
    (params : List (String × Value)) (fs : FieldList) :
    missingKeys defaultRequired params fs ≠ []
      ↔ hasRequiredAbsent defaultRequired params fs = true := by
  cases fs with
  | fnil => simp [missingKeys, hasRequiredAbsent]
  | fcons f fsTail =>
      simp only [missingKeys, hasRequiredAbsent, ne_eq, List.append_eq_nil,
        not_and, Bool.or_eq_true]
      constructor
      · intro h
        by_cases h1 : missingKeysF defaultRequired params f = []
        · exact Or.inr ((missingKeys_ne_nil_iff defaultRequired params fsTail).mp (h h1))
        · exact Or.inl ((missingKeysF_ne_nil_iff defaultRequired params f).mp h1)
      · intro h h1
        cases h with
        | inl hF =>
            exact absurd h1 ((missingKeysF_ne_nil_iff defaultRequired params f).mpr hF)
        | inr hT =>
            exact (missingKeys_ne_nil_iff defaultRequired params fsTail).mpr hT
termination_by structural fs
end

/-- C7: after a complete (error-free) traversal started with an empty
accumulator, the missing-fields result is exactly the ordered sequence of
resolved external keys of the required, non-skipped, exported fields with
no matching parameter — in particular it is non-empty exactly when at least
one such field exists. -/
theorem missing_fields_result (defaultRequired : Bool)
    (params : List (String × Value)) (fs : FieldList) (vs : ValList)
    (ha : aligned fs vs = true)
    (he : (unmarshalToValue defaultRequired params fs vs ⟨[]⟩).err = none) :
    (unmarshalToValue defaultRequired params fs vs ⟨[]⟩).missing.Names
      = missingKeys defaultRequired params fs
    ∧ ((unmarshalToValue defaultRequired params fs vs ⟨[]⟩).missing.Names ≠ []
        ↔ hasRequiredAbsent defaultRequired params fs = true) := by
  have h1 := unmarshalToValue_missing_names defaultRequired params fs vs ⟨[]⟩ ha he
  simp only [List.nil_append] at h1
  refine ⟨h1, ?_⟩
  rw [h1]
  exact missingKeys_ne_nil_iff defaultRequired params fs

/-- C7, witness. -/
theorem missing_fields_result_witness :
    (unmarshalToValue true [] (.fcons (.plain "N" "" "" "" .tInt) .fnil)
        (.vcons (.vInt 0) .vnil) ⟨[]⟩).missing.Names
      = missingKeys true [] (.fcons (.plain "N" "" "" "" .tInt) .fnil)
    ∧ ((unmarshalToValue true [] (.fcons (.plain "N" "" "" "" .tInt) .fnil)
        (.vcons (.vInt 0) .vnil) ⟨[]⟩).missing.Names ≠ []
        ↔ hasRequiredAbsent true [] (.fcons (.plain "N" "" "" "" .tInt) .fnil) = true) :=
  missing_fields_result true [] (.fcons (.plain "N" "" "" "" .tInt) .fnil)
    (.vcons (.vInt 0) .vnil) (by decide) (by decide)

end WebRequestReaders
